import Mathlib

/-!
Verification of the record-store / transaction client in
`src/notion/client.py` (lyhourchhen/notion-py).

The Python module is shallowly embedded: the client's mutable attributes
become an explicit `ClientState`, remote effects become an explicit event
trace (`Event`), and fallible paths return `Except Err`.  Collaborator
modules that are not part of the source tree (`store.py`, `operations.py`,
`block.py`, `utils.py`) are modelled from the specification where a claim
depends on them; each such definition carries a doc comment starting with
"Modelled from the spec:".
-/

namespace NotionPy

/-- A mutation operation, the dict `{table, id, path, command, args}`
(spec section 3, "Operation"). `path` and `args` are kept abstract as
strings; only `table` and `id` are inspected by `client.py`. -/
structure Op where
  table : String
  id : String
  path : List String
  command : String
  args : String
deriving DecidableEq, Repr

/-- The `operations` argument of `NotionClient.submit_transaction`
(src/notion/client.py line 111): Python accepts either a single operation
dict or a list of operation dicts. -/
inductive OpsArg where
  | single (op : Op)
  | list (ops : List Op)
deriving DecidableEq, Repr

/-- A raw record payload, restricted to the two fields `client.py` reads:
`parent_table` (line 44, via `.get`, so optional) and `type` (lines 47 and
90, via `.get` with default `""`, so optional). -/
structure Record where
  parent_table : Option String
  type : Option String
deriving DecidableEq, Repr

/-- The wrapper class chosen by the record-factory dispatch.
`blockSubtype t` stands for the entry of the external `BLOCK_TYPES` dict at
key `t`; `collectionViewSubtype t` for the entry of `COLLECTION_VIEW_TYPES`
at key `t` (both dicts live in modules outside src/ and are abstracted by
their key sets in `Env`). -/
inductive WrapperClass where
  | block
  | blockSubtype (t : String)
  | collectionRowBlock
  | collection
  | user
  | space
  | collectionView
  | collectionViewSubtype (t : String)
deriving DecidableEq, Repr

/-- A constructed wrapper object: `(class, id[, collection])`.  Wrappers
hold no record data (spec section 3, "Typed Wrapper"). -/
structure Wrapper where
  cls : WrapperClass
  id : String
  collection : Option String
deriving DecidableEq, Repr

/-- Python exceptions that `client.py` can raise on the modelled paths. -/
inductive Err where
  | invalidCollectionViewURL
  | assertionError
  | attributeError
  | httpError
deriving DecidableEq, Repr

/-- Observable remote effects, in order of occurrence.
`submitPost ops` is a POST to the `submitTransaction` endpoint with body
`{"operations": ops}` (client.py lines 124-127); `recordFetch` is a record
lookup through the record store (line 34); `refreshTouched` is the store's
post-transaction forced refresh (line 186). -/
inductive Event where
  | submitPost (ops : List Op)
  | recordFetch (table : String) (id : String)
  | refreshTouched (pages : List String) (blocks : List String)
deriving DecidableEq, Repr

/-- The environment: the remote/store contents and the external tables the
client consults.  `db` abstracts `RecordStore.get` results (table, id ↦
record or absent/empty); `btypes`/`vtypes` are the key sets of the external
`BLOCK_TYPES` / `COLLECTION_VIEW_TYPES` dicts; `blockCollection` abstracts
the `.collection` attribute of a block wrapper (collection.py, outside
src/); `extractId` abstracts `utils.extract_id` (utils.py, outside src/);
`submitOk` tells whether the `submitTransaction` POST succeeds. -/
structure Env where
  db : String → String → Option Record
  btypes : List String
  vtypes : List String
  blockCollection : String → Option String
  extractId : String → String
  submitOk : Bool

/-- The client's mutable attributes used by the transaction machinery.
`transaction_operations`, `pages_to_refresh` and `blocks_to_refresh` are
dynamic attributes (`none` = attribute absent, matching `hasattr` /
`del`). -/
structure ClientState where
  user_id : String
  transaction_operations : Option (List Op)
  pages_to_refresh : Option (List String)
  blocks_to_refresh : Option (List String)
deriving DecidableEq, Repr

/-- `NotionClient.in_transaction` (client.py lines 139-143):
`hasattr(self, "_transaction_operations")`. -/
def in_transaction (s : ClientState) : Bool :=
  s.transaction_operations.isSome

/-- Modelled from the spec: `operations.operation_update_last_edited`
(operations.py is not under src/).  Per spec sections 4.2 and 4.4 it is the
automatic "update last-edited metadata" operation for one mutated block id,
so it targets table `block` at that id. -/
def operation_update_last_edited (user_id block_id : String) : Op :=
  { table := "block", id := block_id, path := []
    command := "update"
    args := "last_edited_by " ++ user_id }

/-- First-occurrence deduplication, standing in for Python's
`set(...)` on line 117 (whose iteration order is arbitrary; no claim
depends on the order, only on the deduplicated membership). -/
def dedupAcc (seen : List String) : List String → List String
  | [] => []
  | x :: xs =>
    if seen.contains x then dedupAcc seen xs
    else x :: dedupAcc (x :: seen) xs

def dedupFirst (l : List String) : List String :=
  dedupAcc [] l

/-- The ids of block-table operations:
`[op["id"] for op in operations if op["table"] == "block"]` (line 117). -/
def blockIds (ops : List Op) : List String :=
  ops.filterMap (fun op => if op.table = "block" then some op.id else none)

/-- The last-edited operations appended on line 118: one per distinct
block id occurring in `ops`. -/
def lastEditedOps (uid : String) (ops : List Op) : List Op :=
  (dedupFirst (blockIds ops)).map (operation_update_last_edited uid)

/-- Lines 113-114: a lone dict is wrapped into a one-element list. -/
def normalizeOps : OpsArg → List Op
  | OpsArg.single op => [op]
  | OpsArg.list ops => ops

/-- The full operations list a `submit_transaction` call works with after
lines 113-118: the normalized argument plus, when `update_last_edited`,
the deduplicated last-edited updates for its block ids. -/
def expandCall (uid : String) (arg : OpsArg) (update_last_edited : Bool) : List Op :=
  let ops := normalizeOps arg
  if update_last_edited then ops ++ lastEditedOps uid ops else ops

/-- `NotionClient.submit_transaction` (client.py lines 111-127).  Inside a
transaction the operations are appended to the buffer (line 122); outside,
one POST to `submitTransaction` is made (lines 124-127), which fails with
an HTTP error when the remote call fails (`post`, lines 99-109, raises and
never retries). -/
def submit_transaction (env : Env) (s : ClientState) (operations : OpsArg)
    (update_last_edited : Bool) :
    Except Err Unit × ClientState × List Event :=
  let ops := expandCall s.user_id operations update_last_edited
  match s.transaction_operations with
  | some buf =>
      (Except.ok (), { s with transaction_operations := some (buf ++ ops) }, [])
  | none =>
      if env.submitOk then (Except.ok (), s, [Event.submitPost ops])
      else (Except.error Err.httpError, s, [Event.submitPost ops])

/-- The `Transaction` context-manager object (client.py lines 156-161):
only its `is_dummy_nested_transaction` flag matters here. -/
structure TransactionObj where
  dummy_nested : Bool
deriving DecidableEq, Repr

/-- `Transaction.__enter__` (client.py lines 163-172): if the client
already has a `_transaction_operations` attribute the instance becomes a
dummy and the state is untouched; otherwise the buffer and the two
refresh-tracking lists are initialized empty. -/
def transaction_enter (s : ClientState) : TransactionObj × ClientState :=
  if s.transaction_operations.isSome then
    ({ dummy_nested := true }, s)
  else
    ({ dummy_nested := false },
     { s with transaction_operations := some []
              pages_to_refresh := some []
              blocks_to_refresh := some [] })

/-- Modelled from the spec:
`RecordStore.handle_post_transaction_refreshing` (store.py is not under
src/).  Per spec section 4.4, on transaction exit the store unconditionally
force-refreshes everything recorded in the refresh-tracking lists, after
which the tracking attributes are gone. -/
def handle_post_transaction_refreshing (s : ClientState) :
    ClientState × List Event :=
  ({ s with pages_to_refresh := none, blocks_to_refresh := none },
   [Event.refreshTouched (s.pages_to_refresh.getD []) (s.blocks_to_refresh.getD [])])

/-- `Transaction.__exit__` (client.py lines 174-186).  A dummy nested
instance returns at once (lines 176-177).  Otherwise the buffer is read
and the attribute deleted (lines 179-180), the buffered operations are
submitted only when no exception is pending (lines 183-184, with
`update_last_edited` defaulting to True), and the store's post-transaction
refresh runs (line 186) — unless the submission itself raised, in which
case the exception propagates and line 186 is never reached. -/
def transaction_exit (env : Env) (t : TransactionObj) (s : ClientState)
    (exc_type : Bool) :
    Except Err Unit × ClientState × List Event :=
  if t.dummy_nested then (Except.ok (), s, [])
  else
    match s.transaction_operations with
    | none => (Except.error Err.attributeError, s, [])
    | some operations =>
      let s1 := { s with transaction_operations := none }
      if exc_type then
        let r := handle_post_transaction_refreshing s1
        (Except.ok (), r.1, r.2)
      else
        match submit_transaction env s1 (OpsArg.list operations) true with
        | (Except.ok _, s2, ev) =>
            let r := handle_post_transaction_refreshing s2
            (Except.ok (), r.1, ev ++ r.2)
        | (Except.error e, s2, ev) => (Except.error e, s2, ev)

/-- One step of client activity inside a transaction scope.
`submit` is a `submit_transaction` call; `touch` is — modelled from the
spec (section 4.2: "every table=block operation's target id is recorded";
the recording lives in the wrapper modules outside src/) — an append to
the client's refresh-tracking lists. -/
inductive Cmd where
  | submit (arg : OpsArg) (update_last_edited : Bool)
  | touch (pages : List String) (blocks : List String)
deriving DecidableEq, Repr

/-- Modelled from the spec: the wrapper-side recording of touched pages
and blocks into the client's refresh-tracking lists (section 4.2). -/
def touch_step (s : ClientState) (pages blocks : List String) : ClientState :=
  { s with pages_to_refresh := s.pages_to_refresh.map (fun l => l ++ pages)
           blocks_to_refresh := s.blocks_to_refresh.map (fun l => l ++ blocks) }

/-- Run a list of client commands sequentially, threading state and
accumulating the effect trace. -/
def runBody (env : Env) : List Cmd → ClientState →
    Except Err Unit × ClientState × List Event
  | [], s => (Except.ok (), s, [])
  | Cmd.submit arg u :: rest, s =>
    match submit_transaction env s arg u with
    | (Except.ok _, s1, ev) =>
      match runBody env rest s1 with
      | (r, s2, ev2) => (r, s2, ev ++ ev2)
    | (Except.error e, s1, ev) => (Except.error e, s1, ev)
  | Cmd.touch p b :: rest, s => runBody env rest (touch_step s p b)

/-- A whole `with client.as_atomic_transaction():` scope: enter, run the
body, exit.  `raises` tells whether the body ended with an unhandled
exception (so `__exit__` receives a non-None `exc_type`). -/
def runScope (env : Env) (s : ClientState) (body : List Cmd) (raises : Bool) :
    Except Err Unit × ClientState × List Event :=
  let p := transaction_enter s
  match runBody env body p.2 with
  | (Except.ok _, s2, ev) =>
    match transaction_exit env p.1 s2 raises with
    | (r2, s3, ev2) => (r2, s3, ev ++ ev2)
  | (Except.error e, s2, ev) => (Except.error e, s2, ev)

/-- The operations a body appends to the buffer: each `submit` call
contributes its expanded operations (argument plus per-call last-edited
updates). -/
def bodyOps (uid : String) : List Cmd → List Op
  | [] => []
  | Cmd.submit arg u :: rest => expandCall uid arg u ++ bodyOps uid rest
  | Cmd.touch _ _ :: rest => bodyOps uid rest

/-- The page ids a body records for post-transaction refreshing. -/
def bodyPages : List Cmd → List String
  | [] => []
  | Cmd.submit _ _ :: rest => bodyPages rest
  | Cmd.touch p _ :: rest => p ++ bodyPages rest

/-- The block ids a body records for post-transaction refreshing. -/
def bodyBlocks : List Cmd → List String
  | [] => []
  | Cmd.submit _ _ :: rest => bodyBlocks rest
  | Cmd.touch _ b :: rest => b ++ bodyBlocks rest

/-- The operations carried by `submitTransaction` POSTs in a trace. -/
def postedOps (evs : List Event) : List Op :=
  (evs.filterMap (fun e =>
    match e with
    | Event.submitPost ops => some ops
    | _ => none)).flatten

/-- The number of `submitTransaction` POSTs in a trace. -/
def submitPostCount (evs : List Event) : Nat :=
  evs.countP (fun e =>
    match e with
    | Event.submitPost _ => true
    | _ => false)

theorem runBody_inTx (env : Env) (body : List Cmd) :
    ∀ (s : ClientState) (buf : List Op) (pg bl : List String),
      s.transaction_operations = some buf →
      s.pages_to_refresh = some pg →
      s.blocks_to_refresh = some bl →
      runBody env body s =
        (Except.ok (),
         { user_id := s.user_id
           transaction_operations := some (buf ++ bodyOps s.user_id body)
           pages_to_refresh := some (pg ++ bodyPages body)
           blocks_to_refresh := some (bl ++ bodyBlocks body) },
         []) := by
  induction body with
  | nil =>
    intro s buf pg bl h1 h2 h3
    simp [runBody, bodyOps, bodyPages, bodyBlocks, ← h1, ← h2, ← h3]
  | cons c rest ih =>
    intro s buf pg bl h1 h2 h3
    cases c with
    | submit arg u =>
      have hs : submit_transaction env s arg u =
          (Except.ok (),
           { s with
               transaction_operations := some (buf ++ expandCall s.user_id arg u) },
           []) := by
        simp [submit_transaction, h1]
      have hr := ih
        { s with
            transaction_operations := some (buf ++ expandCall s.user_id arg u) }
        (buf ++ expandCall s.user_id arg u) pg bl rfl h2 h3
      simp [runBody, hs, hr, bodyOps, bodyPages, bodyBlocks, List.append_assoc]
    | touch p b =>
      have hr := ih (touch_step s p b) buf (pg ++ p) (bl ++ b)
        (by simp [touch_step, h1]) (by simp [touch_step, h2])
        (by simp [touch_step, h3])
      simp [touch_step, h1, h2, h3] at hr
      simp [runBody, hr, touch_step, bodyOps, bodyPages, bodyBlocks,
        List.append_assoc, h1, h2, h3]

theorem runScope_success_eq (env : Env) (s : ClientState) (body : List Cmd)
    (hok : env.submitOk = true) (h : s.transaction_operations = none) :
    runScope env s body false =
      (Except.ok (),
       { user_id := s.user_id, transaction_operations := none
         pages_to_refresh := none, blocks_to_refresh := none },
       [Event.submitPost
          (bodyOps s.user_id body ++ lastEditedOps s.user_id (bodyOps s.user_id body)),
        Event.refreshTouched (bodyPages body) (bodyBlocks body)]) := by
  have he : transaction_enter s =
      ({ dummy_nested := false },
       { s with transaction_operations := some [], pages_to_refresh := some []
                blocks_to_refresh := some [] }) := by
    simp [transaction_enter, h]
  have hb := runBody_inTx env body
    { s with transaction_operations := some [], pages_to_refresh := some []
             blocks_to_refresh := some [] } [] [] [] rfl rfl rfl
  simp only [List.nil_append] at hb
  simp [runScope, he, hb, transaction_exit, submit_transaction, expandCall,
    normalizeOps, handle_post_transaction_refreshing, hok]

theorem runScope_exc_eq (env : Env) (s : ClientState) (body : List Cmd)
    (h : s.transaction_operations = none) :
    runScope env s body true =
      (Except.ok (),
       { user_id := s.user_id, transaction_operations := none
         pages_to_refresh := none, blocks_to_refresh := none },
       [Event.refreshTouched (bodyPages body) (bodyBlocks body)]) := by
  have he : transaction_enter s =
      ({ dummy_nested := false },
       { s with transaction_operations := some [], pages_to_refresh := some []
                blocks_to_refresh := some [] }) := by
    simp [transaction_enter, h]
  have hb := runBody_inTx env body
    { s with transaction_operations := some [], pages_to_refresh := some []
             blocks_to_refresh := some [] } [] [] [] rfl rfl rfl
  simp only [List.nil_append] at hb
  simp [runScope, he, hb, transaction_exit, handle_post_transaction_refreshing]

theorem runScope_submitFail_eq (env : Env) (s : ClientState) (body : List Cmd)
    (hfail : env.submitOk = false) (h : s.transaction_operations = none) :
    runScope env s body false =
      (Except.error Err.httpError,
       { user_id := s.user_id, transaction_operations := none
         pages_to_refresh := some (bodyPages body)
         blocks_to_refresh := some (bodyBlocks body) },
       [Event.submitPost
          (bodyOps s.user_id body ++ lastEditedOps s.user_id (bodyOps s.user_id body))]) := by
  have he : transaction_enter s =
      ({ dummy_nested := false },
       { s with transaction_operations := some [], pages_to_refresh := some []
                blocks_to_refresh := some [] }) := by
    simp [transaction_enter, h]
  have hb := runBody_inTx env body
    { s with transaction_operations := some [], pages_to_refresh := some []
             blocks_to_refresh := some [] } [] [] [] rfl rfl rfl
  simp only [List.nil_append] at hb
  simp [runScope, he, hb, transaction_exit, submit_transaction, expandCall,
    normalizeOps, hfail]

/-- A concrete environment for instantiating the theorems: empty store,
no known subtypes, a remote that accepts submissions. -/
def envT : Env :=
  { db := fun _ _ => none, btypes := [], vtypes := []
    blockCollection := fun _ => none, extractId := fun i => i, submitOk := true }

/-- Like `envT`, but the `submitTransaction` POST fails. -/
def envF : Env :=
  { envT with submitOk := false }

/-- A concrete client state with no open transaction. -/
def sInact : ClientState :=
  { user_id := "u", transaction_operations := none
    pages_to_refresh := none, blocks_to_refresh := none }

/-- A concrete user mutation on block "x". -/
def opX : Op :=
  { table := "block", id := "x", path := ["properties", "title"]
    command := "set", args := "hello" }

/-- A concrete scope body: one submit_transaction call plus one recorded
touched page/block. -/
def bodyT : List Cmd :=
  [Cmd.submit (OpsArg.list [opX]) true, Cmd.touch ["p1"] ["x"]]

/-- Two submit_transaction calls that both mutate block "x". -/
def bodyC2 : List Cmd :=
  [Cmd.submit (OpsArg.list [opX]) true, Cmd.submit (OpsArg.list [opX]) true]

/-- How many last-edited updates for `(uid, bid)` a batch contains. -/
def countLastEditedFor (uid bid : String) (ops : List Op) : Nat :=
  ops.countP (fun op => op == operation_update_last_edited uid bid)

/-- C1: for every sequence of submit_transaction calls inside one outer
transaction scope that exits without an unhandled exception, no
submitTransaction POST is made during the scope, and on exit exactly one
submitTransaction POST is made whose operations list contains every
buffered operation — operations are never split across requests. -/
theorem single_flush_contains_all_buffered (env : Env) (s : ClientState)
    (body : List Cmd) (hok : env.submitOk = true)
    (h : s.transaction_operations = none) :
    ∃ finalOps pages blocks,
      (runScope env s body false).2.2 =
        [Event.submitPost finalOps, Event.refreshTouched pages blocks] ∧
      ∀ op ∈ bodyOps s.user_id body, op ∈ finalOps := by
  refine ⟨bodyOps s.user_id body ++ lastEditedOps s.user_id (bodyOps s.user_id body),
    bodyPages body, bodyBlocks body, ?_, ?_⟩
  · rw [runScope_success_eq env s body hok h]
  · intro op hop
    exact List.mem_append_left _ hop

theorem single_flush_contains_all_buffered_witness :
    ∃ finalOps pages blocks,
      (runScope envT sInact bodyT false).2.2 =
        [Event.submitPost finalOps, Event.refreshTouched pages blocks] ∧
      ∀ op ∈ bodyOps "u" bodyT, op ∈ finalOps :=
  single_flush_contains_all_buffered envT sInact bodyT rfl rfl

/-- C2 counterexample: two submit_transaction calls inside one scope each
mutate block "x"; the claim says the final submitted batch contains
exactly one last-edited update for "x", but it contains three — each
buffered call appends its own (client.py lines 116-118 run per call), and
the flush (line 184) re-runs submit_transaction on the whole buffer with
update_last_edited=True, appending one more. -/
theorem last_edited_once_per_flush_cex :
    countLastEditedFor "u" "x" (postedOps (runScope envT sInact bodyC2 false).2.2) = 3 ∧
    ¬ countLastEditedFor "u" "x" (postedOps (runScope envT sInact bodyC2 false).2.2) = 1 := by
  constructor <;> decide

/-- C2 amended: the flushed batch is exactly the buffered operations —
which already include one last-edited update per distinct block id per
individual submit_transaction call — followed by one further last-edited
update per distinct block id of the whole buffer, appended at flush time;
so a block id mutated by two calls gets three last-edited updates, not
one. -/
theorem last_edited_per_call_and_at_flush (env : Env) (s : ClientState)
    (body : List Cmd) (hok : env.submitOk = true)
    (h : s.transaction_operations = none) :
    postedOps (runScope env s body false).2.2 =
      bodyOps s.user_id body ++ lastEditedOps s.user_id (bodyOps s.user_id body) := by
  rw [runScope_success_eq env s body hok h]
  simp [postedOps]

theorem last_edited_per_call_and_at_flush_witness :
    postedOps (runScope envT sInact bodyC2 false).2.2 =
      bodyOps "u" bodyC2 ++ lastEditedOps "u" (bodyOps "u" bodyC2) :=
  last_edited_per_call_and_at_flush envT sInact bodyC2 rfl rfl

/-- C3 counterexample: a scope that raises makes zero submitTransaction
POSTs and discards the buffer, as the claim says, but its final conjunct
fails: the post-transaction forced refresh of the touched ids IS performed
(client.py line 186 runs on the exception path too). -/
theorem abort_no_refresh_cex :
    (runScope envT sInact [Cmd.touch ["p1"] ["x"]] true).2.2 =
      [Event.refreshTouched ["p1"] ["x"]] := by decide

/-- C3 amended: on an exception exit, zero submitTransaction POSTs are
made for the buffered operations and the buffer is discarded, but the
post-transaction forced refresh of the touched ids is still performed —
the refresh step runs unconditionally. -/
theorem abort_discards_buffer_but_refreshes (env : Env) (s : ClientState)
    (body : List Cmd) (h : s.transaction_operations = none) :
    submitPostCount (runScope env s body true).2.2 = 0 ∧
    runScope env s body true =
      (Except.ok (),
       { user_id := s.user_id, transaction_operations := none
         pages_to_refresh := none, blocks_to_refresh := none },
       [Event.refreshTouched (bodyPages body) (bodyBlocks body)]) := by
  rw [runScope_exc_eq env s body h]
  exact ⟨rfl, rfl⟩

theorem abort_discards_buffer_but_refreshes_witness :
    submitPostCount (runScope envT sInact bodyT true).2.2 = 0 ∧
    runScope envT sInact bodyT true =
      (Except.ok (),
       { user_id := "u", transaction_operations := none
         pages_to_refresh := none, blocks_to_refresh := none },
       [Event.refreshTouched (bodyPages bodyT) (bodyBlocks bodyT)]) :=
  abort_discards_buffer_but_refreshes envT sInact bodyT rfl

/-- C4: whether the outer scope exits normally (flush) or because of an
unhandled exception (discard), the post-transaction forced refresh of
every touched id runs, and the client is left with no open transaction. -/
theorem scope_exit_always_refreshes_and_closes (env : Env) (s : ClientState)
    (body : List Cmd) (raises : Bool) (hok : env.submitOk = true)
    (h : s.transaction_operations = none) :
    in_transaction (runScope env s body raises).2.1 = false ∧
    (runScope env s body raises).2.2 =
      (if raises then []
       else
         [Event.submitPost
            (bodyOps s.user_id body ++ lastEditedOps s.user_id (bodyOps s.user_id body))]) ++
        [Event.refreshTouched (bodyPages body) (bodyBlocks body)] := by
  cases raises with
  | false =>
    rw [runScope_success_eq env s body hok h]
    exact ⟨rfl, rfl⟩
  | true =>
    rw [runScope_exc_eq env s body h]
    exact ⟨rfl, rfl⟩

theorem scope_exit_always_refreshes_and_closes_witness :
    (in_transaction (runScope envT sInact bodyT false).2.1 = false ∧
      (runScope envT sInact bodyT false).2.2 =
        (if false then []
         else
           [Event.submitPost
              (bodyOps "u" bodyT ++ lastEditedOps "u" (bodyOps "u" bodyT))]) ++
          [Event.refreshTouched (bodyPages bodyT) (bodyBlocks bodyT)]) ∧
    (in_transaction (runScope envT sInact bodyT true).2.1 = false ∧
      (runScope envT sInact bodyT true).2.2 =
        (if true then []
         else
           [Event.submitPost
              (bodyOps "u" bodyT ++ lastEditedOps "u" (bodyOps "u" bodyT))]) ++
          [Event.refreshTouched (bodyPages bodyT) (bodyBlocks bodyT)]) :=
  ⟨scope_exit_always_refreshes_and_closes envT sInact bodyT false rfl rfl,
   scope_exit_always_refreshes_and_closes envT sInact bodyT true rfl rfl⟩

/-- C5: entering a Transaction scope while a transaction is already active
on the client leaves the buffer and the refresh-tracking lists unchanged
(no reinitialization), and that inner scope's exit performs no submission,
no buffer clearing and no refresh — it is a dummy. -/
theorem nested_scope_is_noop (s : ClientState) (buf : List Op)
    (h : s.transaction_operations = some buf) :
    transaction_enter s = ({ dummy_nested := true }, s) ∧
    ∀ (env : Env) (s2 : ClientState) (exc : Bool),
      transaction_exit env (transaction_enter s).1 s2 exc =
        (Except.ok (), s2, []) := by
  have he : transaction_enter s = ({ dummy_nested := true }, s) := by
    simp [transaction_enter, h]
  refine ⟨he, ?_⟩
  intro env s2 exc
  rw [he]
  simp [transaction_exit]

theorem nested_scope_is_noop_witness :
    transaction_enter { sInact with transaction_operations := some [opX] } =
      ({ dummy_nested := true }, { sInact with transaction_operations := some [opX] }) ∧
    ∀ (env : Env) (s2 : ClientState) (exc : Bool),
      transaction_exit env
          (transaction_enter { sInact with transaction_operations := some [opX] }).1 s2 exc =
        (Except.ok (), s2, []) :=
  nested_scope_is_noop { sInact with transaction_operations := some [opX] } [opX] rfl

/-- C9: when the flush's remote submission fails, the error propagates to
the caller of the scope exit, the post-transaction refresh does not run,
the buffer was already cleared before the submission (so the client
reports no open transaction afterward), and exactly one POST was
attempted — no retry. -/
theorem flush_failure_propagates (env : Env) (s : ClientState)
    (body : List Cmd) (hfail : env.submitOk = false)
    (h : s.transaction_operations = none) :
    (runScope env s body false).1 = Except.error Err.httpError ∧
    in_transaction (runScope env s body false).2.1 = false ∧
    (runScope env s body false).2.2 =
      [Event.submitPost
         (bodyOps s.user_id body ++ lastEditedOps s.user_id (bodyOps s.user_id body))] := by
  rw [runScope_submitFail_eq env s body hfail h]
  exact ⟨rfl, rfl, rfl⟩

theorem flush_failure_propagates_witness :
    (runScope envF sInact bodyT false).1 = Except.error Err.httpError ∧
    in_transaction (runScope envF sInact bodyT false).2.1 = false ∧
    (runScope envF sInact bodyT false).2.2 =
      [Event.submitPost
         (bodyOps "u" bodyT ++ lastEditedOps "u" (bodyOps "u" bodyT))] :=
  flush_failure_propagates envF sInact bodyT rfl rfl

/-- C10: submit_transaction treats a single operation dict exactly as the
one-element list containing that dict, both for immediate submission and
for in-transaction buffering. -/
theorem submit_single_op_as_singleton_list (env : Env) (s : ClientState)
    (op : Op) (update_last_edited : Bool) :
    submit_transaction env s (OpsArg.single op) update_last_edited =
      submit_transaction env s (OpsArg.list [op]) update_last_edited := rfl

/-- `NotionClient.get_record_data` (client.py lines 33-34).  The record
store it delegates to is modelled from the spec (store.py is not under
src/): per section 4.2 it yields the record for (table, id) or null when
the record does not exist remotely; caching and batching are abstracted
into `env.db`.  Each call shows up in the trace as a store access. -/
def get_record_data (env : Env) (table idv : String) :
    Option Record × List Event :=
  (env.db table idv, [Event.recordFetch table idv])

/-- The `BLOCK_TYPES.get(t, Block)` lookup of client.py line 47; the dict
itself lives in block.py (outside src/) and is abstracted by its key set
`btypes`. -/
def blockTypesGet (btypes : List String) (t : String) : WrapperClass :=
  if btypes.contains t then WrapperClass.blockSubtype t else WrapperClass.block

/-- The `COLLECTION_VIEW_TYPES.get(t, CollectionView)` lookup of client.py
line 90, abstracted by the key set `vtypes`. -/
def viewTypesGet (vtypes : List String) (t : String) : WrapperClass :=
  if vtypes.contains t then WrapperClass.collectionViewSubtype t
  else WrapperClass.collectionView

/-- `NotionClient.get_block` (client.py lines 36-48).  `env.extractId`
stands for `utils.extract_id` (utils.py, outside src/). -/
def get_block (env : Env) (url_or_id : String) : Option Wrapper × List Event :=
  let block_id := env.extractId url_or_id
  match get_record_data env "block" block_id with
  | (none, ev) => (none, ev)
  | (some block, ev) =>
    let block_class :=
      if block.parent_table = some "collection" then
        WrapperClass.collectionRowBlock
      else blockTypesGet env.btypes (block.type.getD "")
    (some { cls := block_class, id := block_id, collection := none }, ev)

/-- `NotionClient.get_collection` (client.py lines 50-55). -/
def get_collection (env : Env) (collection_id : String) :
    Option Wrapper × List Event :=
  match get_record_data env "collection" collection_id with
  | (none, ev) => (none, ev)
  | (some _, ev) =>
    (some { cls := WrapperClass.collection, id := collection_id
            collection := none }, ev)

/-- `NotionClient.get_user` (client.py lines 57-62). -/
def get_user (env : Env) (user_id : String) : Option Wrapper × List Event :=
  match get_record_data env "notion_user" user_id with
  | (none, ev) => (none, ev)
  | (some _, ev) =>
    (some { cls := WrapperClass.user, id := user_id, collection := none }, ev)

/-- `NotionClient.get_space` (client.py lines 64-69). -/
def get_space (env : Env) (space_id : String) : Option Wrapper × List Event :=
  match get_record_data env "space" space_id with
  | (none, ev) => (none, ev)
  | (some _, ev) =>
    (some { cls := WrapperClass.space, id := space_id, collection := none }, ev)

/-- The `[a-f0-9]` character class of the view-URL regex
(client.py line 79). -/
def isHexLower (c : Char) : Bool :=
  ('a' ≤ c && c ≤ 'f') || ('0' ≤ c && c ≤ '9')

/-- Take exactly `n` lowercase-hex characters off the front of `l`,
returning them and the remainder. -/
def hexTake : Nat → List Char → Option (List Char × List Char)
  | 0, l => some ([], l)
  | _ + 1, [] => none
  | n + 1, c :: l =>
    if isHexLower c then
      match hexTake n l with
      | none => none
      | some (h, r) => some (c :: h, r)
    else none

/-- Match the regex `([a-f0-9]{32})\?v=([a-f0-9]{32})` anchored at the
head of `l`, returning the two captured groups. -/
def matchViewAt (l : List Char) : Option (String × String) :=
  match hexTake 32 l with
  | none => none
  | some (h1, rest) =>
    if rest.take 3 = ['?', 'v', '='] then
      match hexTake 32 (rest.drop 3) with
      | none => none
      | some (h2, _) => some (String.mk h1, String.mk h2)
    else none

/-- `re.search` of that regex (client.py line 79): try each start
position, leftmost first. -/
def searchViewUrl : List Char → Option (String × String)
  | [] => none
  | c :: l =>
    match matchViewAt (c :: l) with
    | some r => some r
    | none => searchViewUrl l

/-- Python's `str.startswith` (client.py line 78). -/
def strStartsWith (s pre : String) : Bool :=
  pre.data.isPrefixOf s.data

/-- The spec-side reading of the URL check: the string contains two
32-character lowercase-hex ids joined by `?v=`. -/
def ContainsViewPattern (s : String) : Prop :=
  ∃ pre h1 h2 post : List Char,
    s.data = pre ++ h1 ++ '?' :: 'v' :: '=' :: (h2 ++ post) ∧
    h1.length = 32 ∧ h2.length = 32 ∧
    (∀ c ∈ h1, isHexLower c = true) ∧ (∀ c ∈ h2, isHexLower c = true)

/-- `NotionClient.get_collection_view` (client.py lines 71-90).  In the
URL branch the collection is read off the block wrapper's `.collection`
attribute (collection.py, outside src/, abstracted by
`env.blockCollection`); a null block wrapper makes that attribute access
raise. -/
def get_collection_view (env : Env) (url_or_id : String)
    (collection : Option String) :
    Except Err (Option Wrapper) × List Event :=
  if strStartsWith url_or_id "http" then
    match searchViewUrl url_or_id.data with
    | none => (Except.error Err.invalidCollectionViewURL, [])
    | some (block_id, view_id) =>
      match get_block env block_id with
      | (none, ev) => (Except.error Err.attributeError, ev)
      | (some w, ev) =>
        let collection := env.blockCollection w.id
        match get_record_data env "collection_view" view_id with
        | (none, ev2) => (Except.ok none, ev ++ ev2)
        | (some view, ev2) =>
          (Except.ok (some { cls := viewTypesGet env.vtypes (view.type.getD "")
                             id := view_id, collection := collection }),
           ev ++ ev2)
  else
    match collection with
    | none => (Except.error Err.assertionError, [])
    | some c =>
      match get_record_data env "collection_view" url_or_id with
      | (none, ev2) => (Except.ok none, ev2)
      | (some view, ev2) =>
        (Except.ok (some { cls := viewTypesGet env.vtypes (view.type.getD "")
                           id := url_or_id, collection := some c }), ev2)

theorem hexTake_eq_some :
    ∀ (n : Nat) (l h r : List Char), hexTake n l = some (h, r) →
      l = h ++ r ∧ h.length = n ∧ ∀ c ∈ h, isHexLower c = true := by
  intro n
  induction n with
  | zero =>
    intro l h r hx
    simp [hexTake] at hx
    obtain ⟨rfl, rfl⟩ := hx
    simp
  | succ n ih =>
    intro l h r hx
    cases l with
    | nil => simp [hexTake] at hx
    | cons c l =>
      by_cases hc : isHexLower c = true
      · cases hm : hexTake n l with
        | none => simp [hexTake, hc, hm] at hx
        | some p =>
          obtain ⟨h0, r0⟩ := p
          simp only [hexTake, hc, if_true, hm, Option.some.injEq,
            Prod.mk.injEq] at hx
          obtain ⟨he, hl, hhex⟩ := ih l h0 r0 hm
          obtain ⟨hxh, hxr⟩ := hx
          subst hxh
          subst hxr
          refine ⟨by simp [he], by simp [hl], ?_⟩
          intro x hxm
          rcases List.mem_cons.mp hxm with rfl | hxm
          · exact hc
          · exact hhex x hxm
      · simp [hexTake, hc] at hx

theorem hexTake_complete :
    ∀ (h r : List Char), (∀ c ∈ h, isHexLower c = true) →
      hexTake h.length (h ++ r) = some (h, r) := by
  intro h
  induction h with
  | nil => intro r _; simp [hexTake]
  | cons c t ih =>
    intro r hhex
    have hc : isHexLower c = true := hhex c (List.mem_cons_self c t)
    have ht := ih r (fun x hx => hhex x (List.mem_cons_of_mem c hx))
    simp [hexTake, hc, ht]

theorem matchViewAt_sound :
    ∀ (l : List Char) (p : String × String), matchViewAt l = some p →
      ∃ h1 h2 rest : List Char,
        l = h1 ++ '?' :: 'v' :: '=' :: (h2 ++ rest) ∧
        h1.length = 32 ∧ h2.length = 32 ∧
        (∀ c ∈ h1, isHexLower c = true) ∧ (∀ c ∈ h2, isHexLower c = true) := by
  intro l p hx
  cases h1m : hexTake 32 l with
  | none => simp [matchViewAt, h1m] at hx
  | some q =>
    obtain ⟨h1, rest⟩ := q
    by_cases htk : rest.take 3 = ['?', 'v', '=']
    · cases h2m : hexTake 32 (rest.drop 3) with
      | none => simp [matchViewAt, h1m, htk, h2m] at hx
      | some q2 =>
        obtain ⟨h2, r2⟩ := q2
        obtain ⟨hl1, hlen1, hhex1⟩ := hexTake_eq_some 32 l h1 rest h1m
        obtain ⟨hl2, hlen2, hhex2⟩ := hexTake_eq_some 32 (rest.drop 3) h2 r2 h2m
        refine ⟨h1, h2, r2, ?_, hlen1, hlen2, hhex1, hhex2⟩
        have hrest : rest = '?' :: 'v' :: '=' :: (h2 ++ r2) := by
          have h3 := (List.take_append_drop 3 rest).symm
          rw [htk, hl2] at h3
          simpa using h3
        rw [hl1, hrest]
    · simp [matchViewAt, h1m, htk] at hx

theorem searchViewUrl_sound :
    ∀ (l : List Char) (p : String × String), searchViewUrl l = some p →
      ∃ pre rest : List Char, l = pre ++ rest ∧ matchViewAt rest = some p := by
  intro l
  induction l with
  | nil => intro p hx; simp [searchViewUrl] at hx
  | cons c l ih =>
    intro p hx
    cases hm : matchViewAt (c :: l) with
    | some q =>
      simp only [searchViewUrl, hm, Option.some.injEq] at hx
      subst hx
      exact ⟨[], c :: l, by simp, hm⟩
    | none =>
      simp only [searchViewUrl, hm] at hx
      obtain ⟨pre, rest, he, hmr⟩ := ih p hx
      exact ⟨c :: pre, rest, by simp [he], hmr⟩

theorem matchViewAt_of_parts (h1 h2 post : List Char)
    (hlen1 : h1.length = 32) (hlen2 : h2.length = 32)
    (hhex1 : ∀ c ∈ h1, isHexLower c = true)
    (hhex2 : ∀ c ∈ h2, isHexLower c = true) :
    (matchViewAt (h1 ++ '?' :: 'v' :: '=' :: (h2 ++ post))).isSome = true := by
  have ht1 : hexTake 32 (h1 ++ '?' :: 'v' :: '=' :: (h2 ++ post)) =
      some (h1, '?' :: 'v' :: '=' :: (h2 ++ post)) := by
    rw [← hlen1]
    exact hexTake_complete h1 _ hhex1
  have ht2 : hexTake 32 (h2 ++ post) = some (h2, post) := by
    rw [← hlen2]
    exact hexTake_complete h2 _ hhex2
  simp [matchViewAt, ht1, ht2]

theorem searchViewUrl_isSome_append :
    ∀ (pre l : List Char), (matchViewAt l).isSome = true →
      (searchViewUrl (pre ++ l)).isSome = true := by
  intro pre
  induction pre with
  | nil =>
    intro l hm
    cases l with
    | nil => simp [matchViewAt, hexTake] at hm
    | cons c l =>
      cases hmm : matchViewAt (c :: l) with
      | none => rw [hmm] at hm; simp at hm
      | some q => simp [searchViewUrl, hmm]
  | cons c pre ih =>
    intro l hm
    have hrec := ih l hm
    cases hmm : matchViewAt (c :: (pre ++ l)) with
    | none => simpa [List.cons_append, searchViewUrl, hmm] using hrec
    | some q => simp [List.cons_append, searchViewUrl, hmm]

theorem containsViewPattern_iff (s : String) :
    ContainsViewPattern s ↔ (searchViewUrl s.data).isSome = true := by
  constructor
  · rintro ⟨pre, h1, h2, post, he, hlen1, hlen2, hhex1, hhex2⟩
    rw [he, List.append_assoc]
    exact searchViewUrl_isSome_append pre _
      (matchViewAt_of_parts h1 h2 post hlen1 hlen2 hhex1 hhex2)
  · intro hx
    cases hm : searchViewUrl s.data with
    | none => rw [hm] at hx; simp at hx
    | some p =>
      obtain ⟨pre, rest, he, hmr⟩ := searchViewUrl_sound s.data p hm
      obtain ⟨h1, h2, r2, her, hlen1, hlen2, hhex1, hhex2⟩ :=
        matchViewAt_sound rest p hmr
      exact ⟨pre, h1, h2, r2, by rw [he, her, ← List.append_assoc],
        hlen1, hlen2, hhex1, hhex2⟩

/-- A record whose parent_table is "collection" but whose declared type
would otherwise dispatch differently. -/
def recRow : Record :=
  { parent_table := some "collection", type := some "text" }

/-- A record living under a space with a known block type. -/
def recPage : Record :=
  { parent_table := some "space", type := some "page" }

/-- An environment whose store returns `recRow` for every key. -/
def envRow : Env :=
  { envT with db := fun _ _ => some recRow, btypes := ["page", "text"] }

/-- An environment whose store has block records only. -/
def envC7 : Env :=
  { envT with db := fun t _ => if t = "block" then some recPage else none }

/-- A well-formed database-page URL: two 32-character lowercase-hex ids
joined by "?v=". -/
def urlV : String :=
  "https://www.notion.so/u/aaaaaaaaaaaaaaaaaaaaaaaaaaaaaaaa?v=bbbbbbbbbbbbbbbbbbbbbbbbbbbbbbbb"

/-- C6: get_block's record-factory dispatch — a fetched record with
parent_table "collection" always yields the collection-row wrapper
regardless of its declared type; otherwise the BLOCK_TYPES entry for a
known type; otherwise the generic Block wrapper. -/
theorem get_block_dispatch (env : Env) (u : String) (rec : Record)
    (h : env.db "block" (env.extractId u) = some rec) :
    ∃ w, (get_block env u).1 = some w ∧
      (rec.parent_table = some "collection" →
        w.cls = WrapperClass.collectionRowBlock) ∧
      (rec.parent_table ≠ some "collection" →
        env.btypes.contains (rec.type.getD "") = true →
        w.cls = WrapperClass.blockSubtype (rec.type.getD "")) ∧
      (rec.parent_table ≠ some "collection" →
        env.btypes.contains (rec.type.getD "") = false →
        w.cls = WrapperClass.block) := by
  refine ⟨{ cls := if rec.parent_table = some "collection" then
              WrapperClass.collectionRowBlock
            else blockTypesGet env.btypes (rec.type.getD "")
            id := env.extractId u, collection := none }, ?_, ?_, ?_, ?_⟩
  · simp [get_block, get_record_data, h]
  · intro hp; simp [hp]
  · intro hp hb
    simp [hp, blockTypesGet, hb]
    simpa using hb
  · intro hp hb
    simp [hp, blockTypesGet, hb]
    simpa using hb

theorem get_block_dispatch_witness :
    ∃ w, (get_block envRow "b1").1 = some w ∧
      (recRow.parent_table = some "collection" →
        w.cls = WrapperClass.collectionRowBlock) ∧
      (recRow.parent_table ≠ some "collection" →
        envRow.btypes.contains (recRow.type.getD "") = true →
        w.cls = WrapperClass.blockSubtype (recRow.type.getD "")) ∧
      (recRow.parent_table ≠ some "collection" →
        envRow.btypes.contains (recRow.type.getD "") = false →
        w.cls = WrapperClass.block) :=
  get_block_dispatch envRow "b1" recRow rfl

/-- C7: when the record store has no data (absent/empty record) for the
requested (table, id), each accessor — get_block, get_collection,
get_user, get_space, get_collection_view — returns None without
constructing any wrapper and without raising. -/
theorem accessors_absent_give_none (env : Env) (idv : String) :
    (env.db "block" (env.extractId idv) = none → (get_block env idv).1 = none) ∧
    (env.db "collection" idv = none → (get_collection env idv).1 = none) ∧
    (env.db "notion_user" idv = none → (get_user env idv).1 = none) ∧
    (env.db "space" idv = none → (get_space env idv).1 = none) ∧
    (strStartsWith idv "http" = false → env.db "collection_view" idv = none →
      ∀ c, (get_collection_view env idv (some c)).1 = Except.ok none) ∧
    (∀ bid vid rec c0, strStartsWith idv "http" = true →
      searchViewUrl idv.data = some (bid, vid) →
      env.db "block" (env.extractId bid) = some rec →
      env.db "collection_view" vid = none →
      (get_collection_view env idv c0).1 = Except.ok none) := by
  refine ⟨?_, ?_, ?_, ?_, ?_, ?_⟩
  · intro h; simp [get_block, get_record_data, h]
  · intro h; simp [get_collection, get_record_data, h]
  · intro h; simp [get_user, get_record_data, h]
  · intro h; simp [get_space, get_record_data, h]
  · intro hh hv c
    simp [get_collection_view, hh, get_record_data, hv]
  · intro bid vid rec c0 hh hs hb hv
    simp [get_collection_view, hh, hs, get_block, get_record_data, hb, hv]

theorem accessors_absent_give_none_witness :
    (get_block envT "x1").1 = none ∧
    (get_collection envT "x1").1 = none ∧
    (get_user envT "x1").1 = none ∧
    (get_space envT "x1").1 = none ∧
    (get_collection_view envT "x1" (some "c1")).1 = Except.ok none ∧
    (get_collection_view envC7 urlV (some "c1")).1 = Except.ok none := by
  obtain ⟨a1, a2, a3, a4, a5, _⟩ := accessors_absent_give_none envT "x1"
  obtain ⟨_, _, _, _, _, b6⟩ := accessors_absent_give_none envC7 urlV
  refine ⟨a1 rfl, a2 rfl, a3 rfl, a4 rfl, a5 (by decide) rfl "c1", ?_⟩
  exact b6 "aaaaaaaaaaaaaaaaaaaaaaaaaaaaaaaa" "bbbbbbbbbbbbbbbbbbbbbbbbbbbbbbbb"
    recPage (some "c1") (by decide) (by decide) rfl rfl

/-- C8: get_collection_view fails fast on malformed input.  An argument
starting with "http" that does not contain two 32-character lowercase-hex
ids joined by "?v=" raises immediately and synchronously, before fetching
any record; a bare id with no collection supplied fails immediately as
well.  Neither case is retried or silently defaulted. -/
theorem collection_view_usage_errors (env : Env) (u : String)
    (c : Option String) :
    (strStartsWith u "http" = true → ¬ ContainsViewPattern u →
      get_collection_view env u c =
        (Except.error Err.invalidCollectionViewURL, [])) ∧
    (strStartsWith u "http" = false →
      get_collection_view env u none =
        (Except.error Err.assertionError, [])) := by
  constructor
  · intro hh hnc
    have hs : searchViewUrl u.data = none := by
      cases hm : searchViewUrl u.data with
      | none => rfl
      | some p =>
        exact absurd ((containsViewPattern_iff u).mpr (by rw [hm]; rfl)) hnc
    simp [get_collection_view, hh, hs]
  · intro hh
    simp [get_collection_view, hh]

theorem collection_view_usage_errors_witness :
    get_collection_view envT "http://example.com/page" none =
      (Except.error Err.invalidCollectionViewURL, []) ∧
    get_collection_view envT "v123" none =
      (Except.error Err.assertionError, []) := by
  constructor
  · refine (collection_view_usage_errors envT "http://example.com/page" none).1
      (by decide) (fun hc => ?_)
    have hs := (containsViewPattern_iff "http://example.com/page").mp hc
    rw [show searchViewUrl (String.data "http://example.com/page") = none
      from by decide] at hs
    simp at hs
  · exact (collection_view_usage_errors envT "v123" none).2 (by decide)

end NotionPy
